import Mathlib

/-!
Verification of the zylo-lang repository front-end against its specification.

The defs below are shallow embeddings of the C++ sources:
  * `TokenType`, `Token`, `TokenIdentifier.tk_identifiers` from
    `src/internal/lexer.hxx` and `src/internal/lexer.cxx`;
  * `process_escape_characters`, `unprocess_escape_characters` and
    `extract_identifier` from the lexer implementation file;
  * the terminal/entry-point behaviour from `terminal.cxx` / `main.cxx`;
  * the memory tracker from `utilities/memory.hxx`.
Strings are modelled as `List Char`; in-place mutation of a `std::string`
argument is modelled by returning the new value.
-/

namespace Zylo

/-- The `TokenType` enumeration of `lexer.hxx`, constructors in source order.
The C++ `static_cast<int>` ordinal of each enumerator is `TokenType.ordinal`. -/
inductive TokenType where
  | Number
  | Bool
  | String
  | Const
  | Var
  | Func
  | EndStatement
  | If
  | Else
  | While
  | Equals
  | UnaryOperator
  | BinaryOperator
  | OpenParen
  | CloseParen
  | OpenBracket
  | CloseBracket
  | Identifier
  | Comment
  | EndOfLine
  | EndOfFile
  | Invalid
  deriving DecidableEq, Repr, Fintype

/-- The integer value `static_cast<int>(t)` of each enumerator (C++ enums
number their members from 0 in declaration order). -/
def TokenType.ordinal : TokenType → Nat
  | .Number => 0
  | .Bool => 1
  | .String => 2
  | .Const => 3
  | .Var => 4
  | .Func => 5
  | .EndStatement => 6
  | .If => 7
  | .Else => 8
  | .While => 9
  | .Equals => 10
  | .UnaryOperator => 11
  | .BinaryOperator => 12
  | .OpenParen => 13
  | .CloseParen => 14
  | .OpenBracket => 15
  | .CloseBracket => 16
  | .Identifier => 17
  | .Comment => 18
  | .EndOfLine => 19
  | .EndOfFile => 20
  | .Invalid => 21

/-- The 22 enumerators in declaration order. -/
def tokenTypeDeclOrder : List TokenType :=
  [.Number, .Bool, .String, .Const, .Var, .Func, .EndStatement, .If, .Else,
   .While, .Equals, .UnaryOperator, .BinaryOperator, .OpenParen, .CloseParen,
   .OpenBracket, .CloseBracket, .Identifier, .Comment, .EndOfLine, .EndOfFile,
   .Invalid]

/-- The explicit initializer list of `TokenIdentifier::tk_identifiers` in
`lexer.cxx` (20 aggregate initializers, one comment-labelled row per line of
the source). -/
def tkInitializers : List (List String) :=
  [[],                                                                -- Number
   [],                                                                -- Bool
   [],                                                                -- String
   ["const"],                                                         -- Const
   ["zylo"],                                                          -- Var
   ["func"],                                                          -- Func
   ["over"],                                                          -- EndStatement
   ["if"],                                                            -- If
   ["else"],                                                          -- Else
   ["while"],                                                         -- While
   ["="],                                                             -- Equals
   ["++", "--", "!"],                                                 -- UnaryOperator
   ["+", "-", "*", "/", "%", "==", "!=", ">", "<", ">=", "<=", "**", "&&", "||"], -- BinaryOperator
   ["("],                                                             -- OpenParen
   [")"],                                                             -- CloseParen
   ["["],                                                             -- OpenBracket
   ["]"],                                                             -- CloseBracket
   [],                                                                -- Identifier
   ["#"],                                                             -- Comment
   ["\n", "\r", ";"]]                                                 -- EndOfLine

/-- `TokenIdentifier::tk_identifiers`: a C++ array of size
`static_cast<int>(TokenType::Invalid)` whose trailing slots, not covered by
the initializer list, are value-initialized to the empty vector. -/
def tk_identifiers : List (List String) :=
  tkInitializers ++
    List.replicate (TokenType.ordinal TokenType.Invalid - tkInitializers.length) []

/-- The token-spelling table exactly as the table in §3 of the spec lists it,
one slot per `TokenType` up to but not including `Invalid`; slots resolved by
shape (`Number`, `Bool`, `String`, `Identifier`) and the synthesized
`EndOfFile` slot are empty. -/
def specTokenSpellings : List (List String) :=
  [[],                                                                -- Number
   [],                                                                -- Bool
   [],                                                                -- String
   ["const"],                                                         -- Const
   ["zylo"],                                                          -- Var
   ["func"],                                                          -- Func
   ["over"],                                                          -- EndStatement
   ["if"],                                                            -- If
   ["else"],                                                          -- Else
   ["while"],                                                         -- While
   ["="],                                                             -- Equals
   ["++", "--", "!"],                                                 -- UnaryOperator
   ["+", "-", "*", "/", "%", "==", "!=", ">", "<", ">=", "<=", "**", "&&", "||"], -- BinaryOperator
   ["("],                                                             -- OpenParen
   [")"],                                                             -- CloseParen
   ["["],                                                             -- OpenBracket
   ["]"],                                                             -- CloseBracket
   [],                                                                -- Identifier
   ["#"],                                                             -- Comment
   ["\n", "\r", ";"],                                                 -- EndOfLine
   []]                                                                -- EndOfFile

/-- The `process_escape_characters` loop of the lexer implementation file,
on the character list of the string it mutates. The C++ loop walks an index
left to right; on a backslash that is not the final character it inspects
the next character: `n` and `t` overwrite the backslash with the real
newline/tab and erase the following character (so the replacement is not
re-examined and scanning resumes two source characters further on); any
other following character leaves the backslash in place, and scanning
resumes at that following character. -/
def process_escape_characters : List Char → List Char
  | [] => []
  | '\\' :: 'n' :: rest => '\n' :: process_escape_characters rest
  | '\\' :: 't' :: rest => '\t' :: process_escape_characters rest
  | '\\' :: c :: rest => '\\' :: process_escape_characters (c :: rest)
  | c :: rest => c :: process_escape_characters rest

/-- The `unprocess_escape_characters` loop: every literal newline character
becomes the two-character sequence backslash-`n`, every literal tab
backslash-`t` (the C++ erase/insert plus the extra `chridx++` makes scanning
resume after the inserted pair); all other characters are unchanged. -/
def unprocess_escape_characters : List Char → List Char
  | [] => []
  | '\n' :: rest => '\\' :: 'n' :: unprocess_escape_characters rest
  | '\t' :: rest => '\\' :: 't' :: unprocess_escape_characters rest
  | c :: rest => c :: unprocess_escape_characters rest

/-- The `skpchrs` array of `extract_identifier`: space, tab and the NUL
sentinel. -/
def skpchrs : List Char := [' ', '\t', '\x00']

/-- The `nonchainablechrs` array of `extract_identifier`. -/
def nonchainablechrs : List Char := ['(', ')', '[', ']']

/-- The local `IdentifierType` enum of `extract_identifier`. -/
inductive IdentifierType where
  | Alpha
  | Numeric
  | Symbolic
  | Unknown
  deriving DecidableEq, Repr

/-- The `isskpchr` lambda: scan `skpchrs` for the character. -/
def isskpchr (chr : Char) : Bool := skpchrs.any (fun skippablechr => skippablechr = chr)

/-- The `isunchainablechr` lambda: scan `nonchainablechrs` for the character. -/
def isunchainablechr (chr : Char) : Bool :=
  nonchainablechrs.any (fun nonchainablechr => nonchainablechr = chr)

/-- The `determineidtype` lambda: underscore and letters are `Alpha`; dot,
minus and digits are `Numeric`; everything else is `Symbolic`. -/
def determineidtype (chr : Char) : IdentifierType :=
  if chr = '_' ∨ ('A' ≤ chr ∧ chr ≤ 'Z') ∨ ('a' ≤ chr ∧ chr ≤ 'z') then
    IdentifierType.Alpha
  else if chr = '.' ∨ chr = '-' ∨ ('0' ≤ chr ∧ chr ≤ '9') then
    IdentifierType.Numeric
  else
    IdentifierType.Symbolic

/-- The mutable locals of the `extract_identifier` loop. -/
structure ExtractState where
  idtype : IdentifierType
  nextid : List Char
  nextidend : Nat
  isstr : Bool
  iscomment : Bool
  deriving DecidableEq, Repr

/-- The locals as initialized before the loop. -/
def initExtractState : ExtractState :=
  { idtype := IdentifierType.Unknown, nextid := [], nextidend := 0,
    isstr := false, iscomment := false }

/-- The classification tail of the loop body (from `IdentifierType
currentidtype = determineidtype(chr);` down to the `nextidend++` that closes
the iteration). The boolean result is `true` for "continue the loop" and
`false` for "break". `st.nextid.headD '\x00'` models the C++ `nextid[0]`,
which on an empty `std::string` reads the null terminator. -/
def classifyStep (st : ExtractState) (chr : Char) : ExtractState × Bool :=
  let currentidtype := determineidtype chr
  if st.idtype = IdentifierType.Unknown then
    ({ st with idtype := currentidtype,
               nextid := st.nextid ++ [chr],
               nextidend := st.nextidend + 1 }, true)
  else if st.idtype = IdentifierType.Numeric ∧ st.nextid.headD '\x00' = '-' ∧ chr = '-' then
    ({ st with nextidend := st.nextidend + 1, nextid := st.nextid ++ [chr] }, false)
  else if st.idtype = IdentifierType.Numeric ∧ 0 < st.nextid.length ∧
          (chr = '-' ∨ currentidtype ≠ IdentifierType.Numeric) then
    (st, false)
  else if (st.idtype = IdentifierType.Symbolic ∧ currentidtype ≠ IdentifierType.Symbolic) ∨
          (st.idtype ≠ IdentifierType.Symbolic ∧
            (currentidtype = IdentifierType.Symbolic ∨ chr = '-')) then
    (st, false)
  else
    ({ st with nextid := st.nextid ++ [chr], nextidend := st.nextidend + 1 }, true)

/-- The `if (isskpchr(chr) || isstr)` branch of the loop body. Its leading
`if (!iscomment)` guards the quote, comment-marker and in-string handling;
when that inner block does not `break` or `continue`, control falls through
to the classification tail. The in-string path performs the source's
`nextidend++; nextidend += chr;`, adding 1 plus the character's numeric
value. -/
def skipBranch (st : ExtractState) (chr : Char) : ExtractState × Bool :=
  if st.iscomment = false then
    if chr = '\"' then
      if st.isstr then
        ({ st with nextidend := st.nextidend + 1 }, false)
      else
        -- `isstr` is set, and the subsequent `if (isstr)` is then taken
        ({ st with isstr := true, nextidend := st.nextidend + 1 + chr.toNat }, true)
    else if chr = '#' then
      if 0 < st.nextid.length then
        ({ st with iscomment := true }, false)
      else
        ({ st with iscomment := true, nextidend := st.nextidend + 1 }, true)
    else if st.isstr then
      ({ st with nextidend := st.nextidend + 1 + chr.toNat }, true)
    else
      classifyStep st chr
  else
    classifyStep st chr

/-- One iteration of the `for (auto chr : line)` loop of
`extract_identifier`; `true` means the loop continues with the returned
state, `false` that it breaks there. -/
def extractStep (st : ExtractState) (chr : Char) : ExtractState × Bool :=
  if st.iscomment then
    if chr = '\n' then
      ({ st with nextidend := st.nextidend + 1 }, false)
    else
      ({ st with nextidend := st.nextidend + 1 }, true)
  else if isunchainablechr chr then
    if st.nextidend = 0 then
      ({ st with nextidend := st.nextidend + 1, nextid := st.nextid ++ [chr] }, false)
    else
      (st, false)
  else if isskpchr chr || st.isstr then
    skipBranch st chr
  else if 0 < st.nextid.length then
    (st, false)
  else
    ({ st with nextidend := st.nextidend + 1 }, true)

/-- Run the loop over the remaining characters, honouring `break`. -/
def extractLoop (st : ExtractState) : List Char → ExtractState
  | [] => st
  | chr :: rest =>
    let r := extractStep st chr
    if r.2 then extractLoop r.1 rest else r.1

/-- `extract_identifier` on the character list of `line`. It returns the
extracted lexeme together with the new value of its by-reference `line`
argument, `line.substr(nextidend)`; `std::string::substr` throws when the
position exceeds the size, which is modelled by `none`. The `separator`
parameter is accepted and, as in the source, never used. -/
def extract_identifier (line : List Char) (separator : Char) :
    Option (List Char × List Char) :=
  let st := extractLoop initExtractState line
  if st.nextidend ≤ line.length then
    some (st.nextid, line.drop st.nextidend)
  else
    none

/-- The `Token` struct of `lexer.hxx`: a type tag and the lexeme text. -/
structure Token where
  type : TokenType
  value : String
  deriving DecidableEq, Repr

/-- Enumerator of a given C++ ordinal (inverse of `TokenType.ordinal`;
out-of-range values answer the `Invalid` sentinel). -/
def tokenTypeOfOrdinal : Nat → TokenType
  | 0 => .Number
  | 1 => .Bool
  | 2 => .String
  | 3 => .Const
  | 4 => .Var
  | 5 => .Func
  | 6 => .EndStatement
  | 7 => .If
  | 8 => .Else
  | 9 => .While
  | 10 => .Equals
  | 11 => .UnaryOperator
  | 12 => .BinaryOperator
  | 13 => .OpenParen
  | 14 => .CloseParen
  | 15 => .OpenBracket
  | 16 => .CloseBracket
  | 17 => .Identifier
  | 18 => .Comment
  | 19 => .EndOfLine
  | 20 => .EndOfFile
  | _ => .Invalid

/-- Modelled from the spec: the numeric-literal shape used by
`determine_token_type` — an optional leading minus, digits, and at most one
dot (`determine_token_type` is declared in `lexer.hxx` but its body is not
under src). -/
def numericShape (s : String) : Bool :=
  let l := if s.toList.headD ' ' = '-' then s.toList.tail else s.toList
  decide (l ≠ [] ∧ (∀ c ∈ l, ('0' ≤ c ∧ c ≤ '9') ∨ c = '.') ∧ l.count '.' ≤ 1)

/-- Modelled from the spec: the identifier shape used by
`determine_token_type` — a letter- or underscore-leading run of letters,
digits and underscores. -/
def identifierShape (s : String) : Bool :=
  match s.toList with
  | [] => false
  | c :: rest =>
    decide ((c = '_' ∨ ('A' ≤ c ∧ c ≤ 'Z') ∨ ('a' ≤ c ∧ c ≤ 'z')) ∧
      ∀ x ∈ rest, x = '_' ∨ ('A' ≤ x ∧ x ≤ 'Z') ∨ ('a' ≤ x ∧ x ≤ 'z') ∨
        ('0' ≤ x ∧ x ≤ '9'))

/-- Modelled from the spec: `determine_token_type` (declared in `lexer.hxx`,
body not under src). Precedence per §4.4: exact match in the literal-spelling
table first, then numeric shape (`Number`), then the boolean spellings
(`Bool`), then identifier shape (`Identifier`), else `Invalid`; the token
carries the lexeme as its value. -/
def determine_token_type (next_id : String) : Token :=
  match (List.range tk_identifiers.length).find?
      (fun i => (tk_identifiers.getD i []).contains next_id) with
  | some i => { type := tokenTypeOfOrdinal i, value := next_id }
  | none =>
    if numericShape next_id then { type := .Number, value := next_id }
    else if next_id = "true" ∨ next_id = "false" then { type := .Bool, value := next_id }
    else if identifierShape next_id then { type := .Identifier, value := next_id }
    else { type := .Invalid, value := next_id }

/-- Modelled from the spec: the recursion of `tokenize` (declared in
`lexer.hxx`, body not under src), driving `extract_identifier` repeatedly
over the remaining source until it is exhausted, classifying each non-empty
lexeme, and appending a final `EndOfFile` token with empty value. The fuel
argument only forces termination; `tokenize` passes enough for the whole
source since every round on a nonempty remainder consumes at least one
character. A remainder on which `extract_identifier` would throw stops the
scan with what was collected (the spec's driver never reaches that case). -/
def tokenizeAux : Nat → List Char → List Token
  | 0, _ => []
  | fuel + 1, line =>
    if line = [] then [{ type := TokenType.EndOfFile, value := "" }]
    else
      match extract_identifier line ' ' with
      | some (lex, rest) =>
        (if lex = [] then [] else [determine_token_type (String.mk lex)]) ++
          tokenizeAux fuel rest
      | none => []

/-- Modelled from the spec: `tokenize` on a whole source string. -/
def tokenize (src : String) : List Token :=
  tokenizeAux (src.toList.length + 1) src.toList

/-- The tracked-pointer pool of `Memory` in `utilities/memory.hxx`. The
`void*` addresses are modelled as abstract numeric handles. -/
structure Memory where
  pointers : List Nat
  deriving DecidableEq, Repr

/-- A newly constructed `Memory`: its `std::vector` of pointers is empty. -/
def Memory.init : Memory := { pointers := [] }

/-- `Memory::create<T>`: allocate a fresh object, push its address onto the
tracked list, and hand the address back (`memory.hxx`, template body in the
header). The fresh heap address is modelled by a handle unused so far. -/
def Memory.create (m : Memory) : Memory × Nat :=
  let pointer := m.pointers.length
  ({ pointers := m.pointers ++ [pointer] }, pointer)

/-- Modelled from the spec: `Memory::clear` (declared in `memory.hxx`, body
not under src) releases every tracked pointer and then empties the tracked
list. -/
def Memory.clear (_m : Memory) : Memory := { pointers := [] }

/-- Modelled from the spec: `Memory::pointers_count` (declared in
`memory.hxx`, body not under src) returns the number of currently tracked
addresses. -/
def Memory.pointers_count (m : Memory) : Nat := m.pointers.length

/-- N successive `create` calls, keeping the tracker state. -/
def Memory.createN (m : Memory) : Nat → Memory
  | 0 => m
  | n + 1 => ((m.createN n).create).1

/-- `ZYLO_VERSION` from `utilities/constants.hxx`. -/
def ZYLO_VERSION : String := "1.0.0"

/-- `DEFAULT_LANGUAGE_NAME` from `utilities/constants.hxx`. -/
def DEFAULT_LANGUAGE_NAME : String := "Zylo"

/-- The lines `zylo_terminal::info` writes to standard output
(`terminal.cxx`; the color changes do not affect the text stream). -/
def zylo_terminal_info_lines : List String :=
  [DEFAULT_LANGUAGE_NAME ++ " " ++ ZYLO_VERSION ++ "\n",
   "Type 'exit' to quit the interpreter.\n",
   "Type 'help' for a list of available commands.\n"]

/-- The value `zylo_terminal::init` returns (`terminal.cxx`): after setting
the console title, clearing the screen and printing the banner, it returns
the literal 0 — unconditionally. -/
def zylo_terminal_init_value : Int := 0

/-- Observable outcome of one process run: exit status and the write events
on the standard output and error streams. -/
structure ProcResult where
  exitCode : Int
  stdout : List String
  stderr : List String
  deriving DecidableEq, Repr

/-- The `main` of `main.cxx`, given the line standard input holds: if
`zylo_terminal::init()` is nonzero, report to the error stream and exit 1;
otherwise prompt with ">>> " via `zylo_terminal::input`, echo the captured
line, and exit 0. -/
def mainRun (inputLine : String) : ProcResult :=
  if zylo_terminal_init_value ≠ 0 then
    { exitCode := 1,
      stdout := zylo_terminal_info_lines,
      stderr := ["Error initializing terminal.\n"] }
  else
    { exitCode := 0,
      stdout := zylo_terminal_info_lines ++
        [">>> ", "You entered: " ++ inputLine ++ "\n"],
      stderr := [] }

end Zylo

namespace Zylo

/-- C4: the token-spelling table `tk_identifiers` has exactly 21 slots, one
per `TokenType` ordinal below `Invalid`; the `Var` slot holds exactly the
single literal "zylo", the `EndOfFile` slot (the one slot the initializer
list does not cover) is the empty list, and the whole table coincides,
slot by slot, with the spec's token-spelling table. -/
theorem tk_identifiers_matches_spec_table :
    tk_identifiers.length = TokenType.ordinal TokenType.Invalid ∧
    TokenType.ordinal TokenType.Invalid = 21 ∧
    tk_identifiers[TokenType.ordinal TokenType.Var]? = some ["zylo"] ∧
    tk_identifiers[TokenType.ordinal TokenType.EndOfFile]? = some [] ∧
    tk_identifiers = specTokenSpellings := by
  refine ⟨by decide, by decide, by decide, by decide, by decide⟩

/-- C5 counterexample: the `TokenType` enumeration does not have exactly 21
members; the fixed declaration order the claim itself lists names 22
enumerators, and the source enumeration indeed has 22. -/
theorem tokenType_card_ne_21 : Fintype.card TokenType ≠ 21 := by decide

/-- C5 (amended): the `TokenType` enumeration is closed with exactly 22
members, in the fixed declaration order `Number, Bool, String, Const, Var,
Func, EndStatement, If, Else, While, Equals, UnaryOperator, BinaryOperator,
OpenParen, CloseParen, OpenBracket, CloseBracket, Identifier, Comment,
EndOfLine, EndOfFile, Invalid`, with ordinals 0 through 21 in that order. -/
theorem tokenType_closed_22_members :
    Fintype.card TokenType = 22 ∧
    tokenTypeDeclOrder.map TokenType.ordinal = List.range 22 ∧
    tokenTypeDeclOrder.Nodup ∧
    ∀ t : TokenType, t ∈ tokenTypeDeclOrder := by
  refine ⟨by decide, by decide, by decide, by decide⟩

/-- Skip characters are exactly space, tab and NUL. -/
theorem isskpchr_iff (c : Char) :
    isskpchr c = true ↔ c = ' ' ∨ c = '\t' ∨ c = '\x00' := by
  constructor
  · intro h
    simp [isskpchr, skpchrs] at h
    tauto
  · intro h
    rcases h with rfl | rfl | rfl <;> decide

/-- Non-chainable characters are exactly the four grouper characters. -/
theorem isunchainablechr_iff (c : Char) :
    isunchainablechr c = true ↔ c = '(' ∨ c = ')' ∨ c = '[' ∨ c = ']' := by
  constructor
  · intro h
    simp [isunchainablechr, nonchainablechrs] at h
    tauto
  · intro h
    rcases h with rfl | rfl | rfl | rfl <;> decide

/-- A loop iteration on a skip character, from a state that is not in
string or comment mode and whose classification is still `Unknown` or
already `Symbolic`: the character is appended to the lexeme, the cut index
advances by one, the classification is `Symbolic`, and the loop continues. -/
theorem extractStep_skip (idt : IdentifierType) (nid : List Char) (nide : Nat)
    (chr : Char) (hs : isskpchr chr = true)
    (h3 : idt = IdentifierType.Unknown ∨ idt = IdentifierType.Symbolic) :
    extractStep ⟨idt, nid, nide, false, false⟩ chr =
      (⟨IdentifierType.Symbolic, nid ++ [chr], nide + 1, false, false⟩, true) := by
  rcases (isskpchr_iff chr).mp hs with rfl | rfl | rfl <;>
    rcases h3 with rfl | rfl <;>
      simp [extractStep, skipBranch, classifyStep, determineidtype,
            isskpchr, isunchainablechr, skpchrs, nonchainablechrs]

/-- A loop iteration on a non-chainable character (not in comment mode):
the loop always breaks; the character becomes the lexeme exactly when the
cut index is still zero. -/
theorem extractStep_unchainable (idt : IdentifierType) (nid : List Char) (nide : Nat)
    (istr : Bool) (chr : Char) (hu : isunchainablechr chr = true) :
    extractStep ⟨idt, nid, nide, istr, false⟩ chr =
      (if nide = 0 then ⟨idt, nid ++ [chr], nide + 1, istr, false⟩
       else ⟨idt, nid, nide, istr, false⟩, false) := by
  rcases (isunchainablechr_iff chr).mp hu with rfl | rfl | rfl | rfl <;>
    by_cases h0 : nide = 0 <;>
      simp [extractStep, isunchainablechr, nonchainablechrs, h0]

/-- A loop iteration on any other character (not skip, not non-chainable),
from a state that is not in string or comment mode: if the lexeme is still
empty the character is silently consumed and the loop continues, otherwise
the loop breaks with everything unchanged. -/
theorem extractStep_other (idt : IdentifierType) (nid : List Char) (nide : Nat)
    (chr : Char) (hu : isunchainablechr chr = false) (hs : isskpchr chr = false) :
    extractStep ⟨idt, nid, nide, false, false⟩ chr =
      (if nid = [] then (⟨idt, nid, nide + 1, false, false⟩, true)
       else (⟨idt, nid, nide, false, false⟩, false)) := by
  by_cases hn : nid = []
  · simp [extractStep, hu, hs, hn]
  · have : 0 < nid.length := List.length_pos.mpr hn
    simp [extractStep, hu, hs, hn, this]

/-- Unfolding of one loop iteration. -/
theorem extractLoop_cons (st : ExtractState) (c : Char) (l : List Char) :
    extractLoop st (c :: l) =
      if (extractStep st c).2 then extractLoop (extractStep st c).1 l
      else (extractStep st c).1 := rfl

/-- Main loop invariant: starting from a state with string and comment mode
off, classification `Unknown` or `Symbolic`, and a lexeme made of skip
characters only, the loop ends with string mode still off, a cut index that
grew by at most the number of characters, and a lexeme that either is made
of skip characters only or — only possible when the start index was zero —
is the start lexeme extended by a single non-chainable character. -/
theorem extractLoop_shape (l : List Char) (idt : IdentifierType)
    (nid : List Char) (nide : Nat)
    (h3 : idt = IdentifierType.Unknown ∨ idt = IdentifierType.Symbolic)
    (h4 : ∀ c ∈ nid, isskpchr c = true) :
    (extractLoop ⟨idt, nid, nide, false, false⟩ l).isstr = false ∧
    (extractLoop ⟨idt, nid, nide, false, false⟩ l).nextidend ≤ nide + l.length ∧
    ((∀ c ∈ (extractLoop ⟨idt, nid, nide, false, false⟩ l).nextid, isskpchr c = true) ∨
      (nide = 0 ∧ ∃ c, isunchainablechr c = true ∧
        (extractLoop ⟨idt, nid, nide, false, false⟩ l).nextid = nid ++ [c])) := by
  induction l generalizing idt nid nide with
  | nil => exact ⟨rfl, Nat.le_refl _, Or.inl h4⟩
  | cons chr rest ih =>
    by_cases hu : isunchainablechr chr = true
    · have hstep := extractStep_unchainable idt nid nide false chr hu
      by_cases h0 : nide = 0
      · have heq : extractLoop ⟨idt, nid, nide, false, false⟩ (chr :: rest) =
            ⟨idt, nid ++ [chr], nide + 1, false, false⟩ := by
          rw [extractLoop_cons, hstep, if_pos h0]
          rfl
        rw [heq]
        refine ⟨rfl, ?_, Or.inr ⟨h0, chr, hu, rfl⟩⟩
        show nide + 1 ≤ nide + (chr :: rest).length
        simp only [List.length_cons]
        omega
      · have heq : extractLoop ⟨idt, nid, nide, false, false⟩ (chr :: rest) =
            ⟨idt, nid, nide, false, false⟩ := by
          rw [extractLoop_cons, hstep, if_neg h0]
          rfl
        rw [heq]
        refine ⟨rfl, ?_, Or.inl h4⟩
        show nide ≤ nide + (chr :: rest).length
        omega
    · by_cases hs : isskpchr chr = true
      · have hstep := extractStep_skip idt nid nide chr hs h3
        have h4x : ∀ c ∈ nid ++ [chr], isskpchr c = true := by
          intro c hc
          rcases List.mem_append.mp hc with hc | hc
          · exact h4 c hc
          · simp at hc; subst hc; exact hs
        have heq : extractLoop ⟨idt, nid, nide, false, false⟩ (chr :: rest) =
            extractLoop ⟨IdentifierType.Symbolic, nid ++ [chr], nide + 1, false, false⟩ rest := by
          rw [extractLoop_cons, hstep]
          rfl
        rw [heq]
        obtain ⟨ha, hb, hc2⟩ :=
          ih IdentifierType.Symbolic (nid ++ [chr]) (nide + 1) (Or.inr rfl) h4x
        refine ⟨ha, ?_, ?_⟩
        · have hlen : nide + 1 + rest.length = nide + (chr :: rest).length := by
            simp only [List.length_cons]
            omega
          exact le_trans hb (le_of_eq hlen)
        · rcases hc2 with h | h
          · exact Or.inl h
          · exact absurd h.1 (Nat.succ_ne_zero nide)
      · have hu' : isunchainablechr chr = false := by simpa using hu
        have hs' : isskpchr chr = false := by simpa using hs
        have hstep := extractStep_other idt nid nide chr hu' hs'
        by_cases hn : nid = []
        · have heq : extractLoop ⟨idt, nid, nide, false, false⟩ (chr :: rest) =
              extractLoop ⟨idt, nid, nide + 1, false, false⟩ rest := by
            rw [extractLoop_cons, hstep, if_pos hn]
            rfl
          rw [heq]
          obtain ⟨ha, hb, hc2⟩ := ih idt nid (nide + 1) h3 h4
          refine ⟨ha, ?_, ?_⟩
          · have hlen : nide + 1 + rest.length = nide + (chr :: rest).length := by
              simp only [List.length_cons]
              omega
            exact le_trans hb (le_of_eq hlen)
          · rcases hc2 with h | h
            · exact Or.inl h
            · exact absurd h.1 (Nat.succ_ne_zero nide)
        · have heq : extractLoop ⟨idt, nid, nide, false, false⟩ (chr :: rest) =
              ⟨idt, nid, nide, false, false⟩ := by
            rw [extractLoop_cons, hstep, if_neg hn]
            rfl
          rw [heq]
          refine ⟨rfl, ?_, Or.inl h4⟩
          show nide ≤ nide + (chr :: rest).length
          omega

/-- The loop invariant at the state `extract_identifier` starts from. -/
theorem extractLoop_init_shape (line : List Char) :
    (extractLoop initExtractState line).isstr = false ∧
    (extractLoop initExtractState line).nextidend ≤ line.length ∧
    ((∀ c ∈ (extractLoop initExtractState line).nextid, isskpchr c = true) ∨
      (∃ c, isunchainablechr c = true ∧
        (extractLoop initExtractState line).nextid = [c])) := by
  have h := extractLoop_shape line IdentifierType.Unknown [] 0 (Or.inl rfl)
    (by intro c hc; simp at hc)
  refine ⟨h.1, (Nat.zero_add line.length) ▸ h.2.1, ?_⟩
  rcases h.2.2 with hall | ⟨-, c, hcu, heq⟩
  · exact Or.inl hall
  · exact Or.inr ⟨c, hcu, by rw [List.nil_append] at heq; exact heq⟩

/-- C1 (code bug evidence): on the input line made of an opening quote, two
letters and a closing quote, `extract_identifier` returns the empty lexeme
and consumes the whole line, and the loop ends with the string-capture flag
still off — the double quote never toggles string-capture mode, because the
quote test sits inside the branch guarded by `isskpchr(chr) || isstr` and a
quote is not a skip character. -/
theorem extract_identifier_quote_dead :
    extract_identifier ['\"', 'a', 'b', '\"'] ' ' = some ([], []) ∧
    (extractLoop initExtractState ['\"', 'a', 'b', '\"']).isstr = false := by
  exact ⟨by decide, by decide⟩

/-- C2: for every input line and separator, the lexeme `extract_identifier`
returns (whenever the final `substr` is in range) is either empty, one of
the four single non-chainable characters, or a nonempty run of skip
characters (space, tab, NUL) only. -/
theorem extract_identifier_result_shape (line : List Char) (separator : Char)
    (out rest : List Char)
    (h : extract_identifier line separator = some (out, rest)) :
    out = [] ∨
    (out = ['('] ∨ out = [')'] ∨ out = ['['] ∨ out = [']']) ∨
    (out ≠ [] ∧ ∀ c ∈ out, c = ' ' ∨ c = '\t' ∨ c = '\x00') := by
  have hout : out = (extractLoop initExtractState line).nextid := by
    unfold extract_identifier at h
    by_cases hle : (extractLoop initExtractState line).nextidend ≤ line.length
    · rw [if_pos hle] at h
      exact (Prod.mk.injEq _ _ _ _ ▸ (Option.some.injEq _ _ ▸ h)).1.symm
    · rw [if_neg hle] at h
      exact absurd h (by simp)
  have hshape := extractLoop_init_shape line
  rcases hshape.2.2 with hall | ⟨c, hcu, heq⟩
  · by_cases hnil : out = []
    · exact Or.inl hnil
    · refine Or.inr (Or.inr ⟨hnil, ?_⟩)
      intro c hc
      have := hall c (hout ▸ hc)
      exact (isskpchr_iff c).mp this
  · refine Or.inr (Or.inl ?_)
    rw [hout, heq]
    rcases (isunchainablechr_iff c).mp hcu with rfl | rfl | rfl | rfl <;> simp

/-- Witness for C2 at the concrete line "  x": the scan succeeds and the
returned lexeme "  " falls in the skip-character case. -/
theorem extract_identifier_result_shape_witness :
    extract_identifier [' ', ' ', 'x'] ' ' = some ([' ', ' '], ['x']) ∧
    ([' ', ' '] = ([] : List Char) ∨
     ([' ', ' '] = ['('] ∨ [' ', ' '] = [')'] ∨ [' ', ' '] = ['['] ∨ [' ', ' '] = [']']) ∨
     ([' ', ' '] ≠ ([] : List Char) ∧ ∀ c ∈ [' ', ' '], c = ' ' ∨ c = '\t' ∨ c = '\x00')) :=
  ⟨by decide,
   extract_identifier_result_shape [' ', ' ', 'x'] ' ' [' ', ' '] ['x'] (by decide)⟩

/-- C7: each of the four non-chainable characters, given as the sole
remaining content of the line, is returned as that single-character lexeme
with the line left empty. -/
theorem extract_identifier_nonchainable_sole :
    extract_identifier ['('] ' ' = some (['('], []) ∧
    extract_identifier [')'] ' ' = some ([')'], []) ∧
    extract_identifier ['['] ' ' = some (['['], []) ∧
    extract_identifier [']'] ' ' = some ([']'], []) := by
  exact ⟨by decide, by decide, by decide, by decide⟩

/-- C10: for every input line and separator the accumulated cut index stays
within the line, so the final `substr` is in range — `extract_identifier`
always returns a value (never throws) and the new `line` is a suffix of the
original — and the loop ends with the string-capture flag off (the
`nextidend += chr` branch lies behind that flag and is never executed). -/
theorem extract_identifier_cut_in_range (line : List Char) (separator : Char) :
    ∃ out rest, extract_identifier line separator = some (out, rest) ∧
      List.IsSuffix rest line ∧
      (extractLoop initExtractState line).isstr = false := by
  have hshape := extractLoop_init_shape line
  have hle : (extractLoop initExtractState line).nextidend ≤ line.length := hshape.2.1
  refine ⟨(extractLoop initExtractState line).nextid,
          line.drop (extractLoop initExtractState line).nextidend, ?_, ?_, hshape.1⟩
  · unfold extract_identifier
    rw [if_pos hle]
  · exact List.drop_suffix _ _

/-- C6: on a string holding only backslash-`n` / backslash-`t` escape
sequences and ordinary characters — in particular no literal newline or tab
characters — decoding the escapes with `process_escape_characters` and then
re-encoding with `unprocess_escape_characters` restores the string exactly. -/
theorem unprocess_process_roundtrip (l : List Char)
    (h : ∀ c ∈ l, c ≠ '\n' ∧ c ≠ '\t') :
    unprocess_escape_characters (process_escape_characters l) = l := by
  induction l using process_escape_characters.induct with
  | case1 => rfl
  | case2 rest ih =>
    have hr : ∀ c ∈ rest, c ≠ '\n' ∧ c ≠ '\t' := fun c hc => h c (by simp [hc])
    simp [process_escape_characters, unprocess_escape_characters, ih hr]
  | case3 rest ih =>
    have hr : ∀ c ∈ rest, c ≠ '\n' ∧ c ≠ '\t' := fun c hc => h c (by simp [hc])
    simp [process_escape_characters, unprocess_escape_characters, ih hr]
  | case4 c rest hn ht ih =>
    have hr : ∀ x ∈ c :: rest, x ≠ '\n' ∧ x ≠ '\t' := fun x hx => h x (by simp at hx ⊢; tauto)
    simp [process_escape_characters, unprocess_escape_characters, ih hr]
  | case5 c rest h1 h2 h3 ih =>
    have hc := h c (by simp)
    have hr : ∀ x ∈ rest, x ≠ '\n' ∧ x ≠ '\t' := fun x hx => h x (by simp [hx])
    simp [process_escape_characters, unprocess_escape_characters, hc.1, hc.2, ih hr]

/-- C3: `tokenize` on the empty source string returns exactly one token,
of type `EndOfFile`, with empty value. -/
theorem tokenize_empty_source :
    tokenize "" = [{ type := TokenType.EndOfFile, value := "" }] := by
  decide

/-- C8: `zylo_terminal::init` returns 0, so the entry point's failure branch
(error-stream message, exit status 1) is unreachable; for every input line
the process writes "You entered: " followed by the line (and the newline of
`std::endl`) to standard output, writes nothing to the error stream, and
exits with status 0. -/
theorem main_echoes_and_exits_zero (s : String) :
    zylo_terminal_init_value = 0 ∧
    mainRun s = { exitCode := 0,
                  stdout := zylo_terminal_info_lines ++
                    [">>> ", "You entered: " ++ s ++ "\n"],
                  stderr := [] } := by
  exact ⟨rfl, rfl⟩

/-- C9: starting from a newly constructed tracker, N `create` calls with no
intervening `clear` leave `pointers_count` equal to N, and a `clear` from
any state leaves it 0. -/
theorem memory_count_create_clear (n : Nat) (m : Memory) :
    (Memory.init.createN n).pointers_count = n ∧
    (m.clear).pointers_count = 0 := by
  constructor
  · induction n with
    | zero => rfl
    | succ k ih =>
      show ((Memory.init.createN k).create).1.pointers_count = k + 1
      simp only [Memory.create, Memory.pointers_count, List.length_append,
        List.length_cons, List.length_nil]
      simpa [Memory.pointers_count] using ih
  · rfl

/-- Witness for C6 at a concrete input containing both escape kinds and a
stray backslash: the hypothesis holds and the round trip is the identity. -/
theorem unprocess_process_roundtrip_witness :
    (∀ c ∈ ['a', '\\', 'n', 'b', '\\', 't', 'c', '\\', 'x'], c ≠ '\n' ∧ c ≠ '\t') ∧
    unprocess_escape_characters
        (process_escape_characters ['a', '\\', 'n', 'b', '\\', 't', 'c', '\\', 'x']) =
      ['a', '\\', 'n', 'b', '\\', 't', 'c', '\\', 'x'] :=
  ⟨by decide, unprocess_process_roundtrip _ (by decide)⟩

end Zylo
